import Mathlib

/-!
Verification development for the email-automation repository (Google Apps
Script).  The JavaScript sources are shallowly embedded: spreadsheet cell
values become the inductive type `Cell` (JS dynamic values restricted to the
shapes the sheets produce), fallible code returns `Except String`, and the
external collaborators (Gmail draft fetch, QuickChart QR rendering, mail
dispatch) are oracle functions collected in an `Env` record.
-/

/-- A spreadsheet / JS value as it flows through the scripts.  `getValues()`
returns strings, numbers or booleans; an empty cell is the empty string.
JS numbers are restricted to integers here (all arithmetic done on them in
the sources is integral). `null` is kept to model explicit JS null. -/
inductive Cell where
  | num (n : Int)
  | str (s : String)
  | bool (b : Bool)
  | null
deriving DecidableEq, Repr

/-- JS `String(v)` coercion for the values of `Cell`. -/
def jsString : Cell → String
  | .num n => toString n
  | .str s => s
  | .bool b => if b then "true" else "false"
  | .null => "null"

/-- JS truthiness for the values of `Cell` (`0`, `""`, `false`, `null` are
falsy, everything else truthy). -/
def Cell.truthy : Cell → Bool
  | .num n => n != 0
  | .str s => s != ""
  | .bool b => b
  | .null => false

/-- JS object lookup for an assoc list built by successive assignments:
the *last* binding of a key wins, a missing key reads as `undefined`
(`none`). -/
def objGet (l : List (String × Cell)) (k : String) : Option Cell :=
  l.foldl (fun acc kv => if kv.1 = k then some kv.2 else acc) none

/- ### ChecksumIdentifier: `convertToIBAN` / `modulo97` / `formatIBAN`
   (src/unnamed/part_000). -/

/-- Embeds `accountNumber.replace(/\D/g, "")`: keep only decimal digits. -/
def stripNonDigits (s : String) : String :=
  ⟨s.data.filter Char.isDigit⟩

/-- JS `String.prototype.padStart(n, "0")`: left-pad with zeros up to
length `n` (a longer string is returned unchanged). -/
def padStart (n : Nat) (s : String) : String :=
  ⟨List.replicate (n - s.length) '0' ++ s.data⟩

/-- Numeric value of a character, `parseInt(c)` for a decimal digit. -/
def digitVal (c : Char) : Nat := c.toNat - 48

/-- The decimal number denoted by a digit string (reference function used
to state properties about `modulo97`). -/
def strNat (cs : List Char) : Nat :=
  cs.foldl (fun a c => a * 10 + digitVal c) 0

/-- Embeds `modulo97(numStr)` from part_000: iterative digit-by-digit reduction
`remainder = (remainder * 10 + parseInt(numStr[i])) % 97`. -/
def modulo97 (cs : List Char) : Nat :=
  cs.foldl (fun r c => (r * 10 + digitVal c) % 97) 0

/-- Embeds `iban.match(/.\x7b1,4\x7d/g)`: cut a character list into chunks of four. -/
def chunk4 : List Char → List (List Char)
  | [] => []
  | [a] => [[a]]
  | [a, b] => [[a, b]]
  | [a, b, c] => [[a, b, c]]
  | a :: b :: c :: d :: rest => [a, b, c, d] :: chunk4 rest

/-- Embeds `formatIBAN`: insert a space every four characters. -/
def formatIBAN (s : String) : String :=
  String.intercalate " " ((chunk4 s.data).map fun cs => (⟨cs⟩ : String))

/-- The 20-digit BBAN assembled by `convertToIBAN`:
zero-padded bank code (4) ++ prefix (6) ++ account number (10), each
stripped of non-digits first. -/
def bbanOf (acc bank pfx : String) : String :=
  padStart 4 (stripNonDigits bank) ++ padStart 6 (stripNonDigits pfx) ++
    padStart 10 (stripNonDigits acc)

/-- The check-digit number `98 - (modulo97(bban ++ "3235" ++ "00") % 97)`
computed by `convertToIBAN` ("CZ" rendered as digits is "3235"). -/
def checksumOf (acc bank pfx : String) : Nat :=
  98 - (modulo97 (bbanOf acc bank pfx ++ "323500").data % 97)

/-- Embeds `checksum.toString().padStart(2, "0")`. -/
def checkDigitsOf (acc bank pfx : String) : String :=
  padStart 2 (Nat.repr (checksumOf acc bank pfx))

/-- The unformatted identifier `"CZ" + checkDigits + bban`. -/
def ibanRaw (acc bank pfx : String) : String :=
  "CZ" ++ checkDigitsOf acc bank pfx ++ bbanOf acc bank pfx

/-- The formatted identifier returned by `convertToIBAN`. -/
def ibanOf (acc bank pfx : String) : String :=
  formatIBAN (ibanRaw acc bank pfx)

/-- Embeds `convertToIBAN(accountNumber, bankCode, prefix)` from
src/unnamed/part_000.  `none` stands for a JS `null`/`undefined` argument
(the only inputs the validation rejects there); any other argument is
coerced with `String(...)` before stripping, which `jsString` has already
performed for the caller.  An absent prefix behaves as `""`. -/
def convertToIBAN (accountNumber bankCode : Option String)
    (pfx : Option String) : Except String String :=
  match accountNumber, bankCode with
  | some acc, some bank => .ok (ibanOf acc bank (pfx.getD ""))
  | _, _ => .error "Account number and bank code are required parameters"

/- ### Payment QR generation (src/Code.js, second revision, lines 591-688). -/

/-- One row of the `QRCodes` sheet, as assembled by `SHEETS_DATA`
(all fields are raw cell values). -/
structure QRSpec where
  emailTopic : Cell
  imageName : Cell
  accountNumber : Cell
  bankCode : Cell
  currency : Cell
  amount : Cell
  variableSymbol : Cell
  variableSymbolColumn : Cell
  message : Cell
  size : Cell
deriving DecidableEq, Repr

/-- Embeds `realizationHeaders.indexOf(cellValue)`: JS `===` equality between a
header string and a cell value succeeds only for an equal string cell. -/
def cellIndexOf? (headers : List String) (c : Cell) : Option Nat :=
  headers.findIdx? (fun h => Cell.str h == c)

/-- JS `n.toFixed(2)` for the integral numbers of this model. -/
def toFixed2 (n : Int) : String := toString n ++ ".00"

/-- Embeds `amount.toFixed(2)`: a TypeError (modelled as `.error`) unless the
cell holds a number. -/
def cellToFixed2 : Cell → Except String String
  | .num n => .ok (toFixed2 n)
  | _ => .error "amount.toFixed is not a function"

/-- Embeds `consolidateQrCodeData(qrCodeObj, realizationData, realizationHeaders)`
from src/Code.js (second revision, lines 659-688).  The JS `qrCodeObj`
null-guard is outside the model (a `QRSpec` is never null).  Reading
`realizationData[0][columnIdx]` when the batch is empty raises a TypeError,
modelled as an error; an out-of-range column read yields `undefined`,
caught by the `== null` check. -/
def consolidateQrCodeData (q : QRSpec) (realizationData : List (List Cell))
    (realizationHeaders : List String) : Except String QRSpec :=
  if q.variableSymbol.truthy && q.variableSymbolColumn.truthy then
    .error "Only one of variableSymbol or variableSymbolColumn should be non-empty."
  else
    if !q.variableSymbol.truthy && q.variableSymbolColumn.truthy then
      match cellIndexOf? realizationHeaders q.variableSymbolColumn with
      | none =>
          .error ("Column " ++ jsString q.variableSymbolColumn ++
            " not found in realization data headers.")
      | some idx =>
          match realizationData.head? with
          | none => .error "Cannot read properties of undefined (reading '0')"
          | some row0 =>
              match row0.get? idx with
              | none =>
                  .error ("No value found in realization data for column " ++
                    jsString q.variableSymbolColumn ++ ".")
              | some v => .ok { q with variableSymbol := v }
    else .ok q

/-- Embeds `generatePaymentQrData(accountNumber, bankCode, currency, amount,
variableSymbol, message)` from src/Code.js (second revision, lines
637-650): builds the short-payment-descriptor string around the IBAN
produced by `convertToIBAN` (cell values are coerced by JS string
interpolation / `String(...)`, never null). -/
def generatePaymentQrData (accountNumber bankCode currency amount
    variableSymbol message : Cell) : Except String String := do
  let iban ← convertToIBAN (some (jsString accountNumber))
    (some (jsString bankCode)) none
  let am ← cellToFixed2 amount
  .ok ("SPD*1.0*ACC:" ++ iban ++ "*AM:" ++ am ++ "*CC:" ++ jsString currency
    ++ (if variableSymbol.truthy then "*VS:" ++ jsString variableSymbol else "")
    ++ (if message.truthy then "*MSG:" ++ jsString message else ""))

/-- Payload grammar as §6 of the spec words it:
`SPD*1.0*ACC:<identifier>*AM:<amount>*CC:<currency>[*VS:<symbol>][*MSG:<text>]`,
optional fields omitted entirely when absent.  Used as the refinement
target for `generatePaymentQrData`. -/
def paymentPayloadSpec (identifier am cc : String)
    (vs msg : Option String) : String :=
  "SPD*1.0*ACC:" ++ identifier ++ "*AM:" ++ am ++ "*CC:" ++ cc
    ++ (match vs with | some v => "*VS:" ++ v | none => "")
    ++ (match msg with | some m => "*MSG:" ++ m | none => "")

/-- Embeds `generateQrCodeBlob(qrCodeObj)` (second revision, lines 596-625): the
payload is built *before* the fetch `try`, so a payload error propagates;
the QuickChart fetch is the oracle `render` (payload and requested size to
an optional blob id; `none` covers both a non-200 response and a caught
fetch error, which the JS converts to `null`). -/
def generateQrCodeBlob (render : String → Cell → Option String)
    (q : QRSpec) : Except String (Option String) := do
  let ds ← generatePaymentQrData q.accountNumber q.bankCode q.currency
    q.amount q.variableSymbol q.message
  .ok (render ds q.size)

/-- JS `String.prototype.replace(pattern, repl)` with a *string* pattern:
replace only the first occurrence. -/
def replaceFirstAux (pat repl : List Char) : List Char → List Char
  | [] => []
  | c :: cs =>
      if pat.isPrefixOf (c :: cs) then repl ++ (c :: cs).drop pat.length
      else c :: replaceFirstAux pat repl cs

/-- String-level wrapper for `replaceFirstAux` (an empty pattern matches
at position 0, as in JS). -/
def replaceFirst (s pat repl : String) : String :=
  if pat = "" then repl ++ s else ⟨replaceFirstAux pat.data repl.data s.data⟩


/- ### TemplateEngine: `fillInTemplateFromObject_` / `escapeData_`
   (src/Code.js, second revision, lines 503-535). -/

/-- The left and right curly brace characters (written by code point to
keep string literals brace-free). -/
def lbrace : Char := Char.ofNat 123

/-- Right curly brace. -/
def rbrace : Char := Char.ofNat 125

/-- Embeds `escapeData_(str)` (second revision, lines 523-535): the escape
sequence substituted for one character. -/
def escapeChar (c : Char) : List Char :=
  if c = '\\' then ['\\', '\\']
  else if c = '"' then ['\\', '"']
  else if c = '/' then ['\\', '/']
  else if c = Char.ofNat 8 then ['\\', 'b']
  else if c = Char.ofNat 12 then ['\\', 'f']
  else if c = '\n' then ['\\', 'n']
  else if c = '\r' then ['\\', 'r']
  else if c = '\t' then ['\\', 't']
  else [c]

/-- The eight sequential JSON-escaping `replace` calls of `escapeData_`
as one character-wise pass (no rule's replacement text contains a later
rule's target character, so the passes commute into this form). -/
def escapeData_ (s : String) : String :=
  ⟨s.data.flatMap escapeChar⟩

/-- What one placeholder resolves to (the replacement callback of line
510-512): the matched token minus braces is looked up in `data`, a falsy
or missing value becomes `""` (`data[key] || ""`), and the result is
passed through `escapeData_`. -/
def resolveKey (data : List (String × Cell)) (k : String) : String :=
  match objGet data k with
  | some v => if v.truthy then escapeData_ (jsString v) else ""
  | none => ""

/-- Scanner state for the global regex replace of
`/{{[^{}]+}}/g`: outside any candidate match, after one opening brace,
inside the key (accumulated in `buf`, brace-free by construction), or
after the first closing brace. -/
inductive ScanState where
  | outside
  | oneBrace
  | inKey (buf : List Char)
  | keyClose (buf : List Char)

/-- One pass of `template_string.replace(/{{[^{}]+}}/g, repl)`: leftmost
match wins, a failed candidate re-starts the scan one character after the
candidate's first brace (which the state transitions reproduce: an
aborted candidate flushes exactly the characters that can no longer begin
a match). -/
def fillAux (repl : List Char → List Char) : ScanState → List Char → List Char
  | .outside, [] => []
  | .oneBrace, [] => [lbrace]
  | .inKey buf, [] => lbrace :: lbrace :: buf
  | .keyClose buf, [] => lbrace :: lbrace :: buf ++ [rbrace]
  | .outside, c :: cs =>
      if c = lbrace then fillAux repl .oneBrace cs
      else c :: fillAux repl .outside cs
  | .oneBrace, c :: cs =>
      if c = lbrace then fillAux repl (.inKey []) cs
      else lbrace :: c :: fillAux repl .outside cs
  | .inKey buf, c :: cs =>
      if c = lbrace then
        if buf.isEmpty then lbrace :: fillAux repl (.inKey []) cs
        else lbrace :: lbrace :: buf ++ fillAux repl .oneBrace cs
      else if c = rbrace then fillAux repl (.keyClose buf) cs
      else fillAux repl (.inKey (buf ++ [c])) cs
  | .keyClose buf, c :: cs =>
      if c = rbrace then
        if buf.isEmpty then lbrace :: lbrace :: rbrace :: rbrace :: fillAux repl .outside cs
        else repl buf ++ fillAux repl .outside cs
      else if c = lbrace then lbrace :: lbrace :: buf ++ rbrace :: fillAux repl .oneBrace cs
      else lbrace :: lbrace :: buf ++ rbrace :: c :: fillAux repl .outside cs

/-- Token replacement over one serialized string: every `{{key}}` match is
replaced by `resolveKey data key`. -/
def fillString (data : List (String × Cell)) (s : String) : String :=
  ⟨fillAux (fun k => (resolveKey data ⟨k⟩).data) .outside s.data⟩

/-- The subject / plain-text / HTML triplet of a Gmail draft message. -/
structure Message where
  subject : String
  text : String
  html : String
deriving DecidableEq, Repr

/-- Embeds `fillInTemplateFromObject_(template, data)` (second revision, lines
503-514).  The JS stringifies the triplet, runs the global token replace
on the serialized form and parses back; placeholders cannot span fields,
so this equals the per-field token replace (`escapeData_` makes the
inserted text survive the JSON round trip verbatim). -/
def fillInTemplateFromObject_ (data : List (String × Cell)) (m : Message) :
    Message :=
  { subject := fillString data m.subject
    text := fillString data m.text
    html := fillString data m.html }

/-- A template laid out as alternating literal segments and placeholders:
`renderT s0 [(k1, s1), (k2, s2)]` is `s0 ++ {{k1}} ++ s1 ++ {{k2}} ++ s2`.
Spec-side description of a well-formed template. -/
def renderT (s0 : String) : List (String × String) → String
  | [] => s0
  | (k, s) :: rest => s0 ++ ⟨[lbrace, lbrace]⟩ ++ k ++ ⟨[rbrace, rbrace]⟩ ++ renderT s rest

/-- The same template with every placeholder resolved through `f`. -/
def filledT (f : String → String) (s0 : String) : List (String × String) → String
  | [] => s0
  | (k, s) :: rest => s0 ++ f k ++ filledT f s rest

/-- A string without curly braces (literal segments and keys of
well-formed templates). -/
def braceFree (s : String) : Prop := lbrace ∉ s.data ∧ rbrace ∉ s.data

/-- Well-formedness of the segment/key alternation: all literal segments
brace-free, all keys non-empty and brace-free. -/
def wfTemplate (s0 : String) (l : List (String × String)) : Prop :=
  braceFree s0 ∧ ∀ p ∈ l, p.1 ≠ "" ∧ braceFree p.1 ∧ braceFree p.2

instance (s : String) : Decidable (braceFree s) :=
  decidable_of_iff (lbrace ∉ s.data ∧ rbrace ∉ s.data) Iff.rfl

instance (s0 : String) (l : List (String × String)) : Decidable (wfTemplate s0 l) :=
  decidable_of_iff (braceFree s0 ∧ ∀ p ∈ l, p.1 ≠ "" ∧ braceFree p.1 ∧ braceFree p.2)
    Iff.rfl

/- ### MergeOrchestrator: `processEmails` (src/Code.js, second revision,
   lines 785-935) with its per-stage try/catch pipeline. -/

/-- One parsed row of the `plan` sheet (`parsePlanData`). -/
structure Plan where
  emailTopic : String
  conditionColumn : String
  sentColumn : String
deriving DecidableEq, Repr

/-- A Gmail draft as returned by `getGmailTemplateFromDrafts_`:
message triplet, attachment blob ids and inline-image map. -/
structure EmailTemplate where
  message : Message
  attachments : List String
  inlineImages : List (String × String)
deriving DecidableEq, Repr

/-- External collaborators and the run's clock, abstracted as oracles:
draft fetch (throws inside the JS, hence `Except`), the QuickChart
renderer, `GmailApp.sendEmail` and the two timestamp renderings used by
the status writes (`Date()` for the template stage, `toISOString()`
elsewhere). -/
structure Env where
  fetchTemplate : String → Except String EmailTemplate
  render : String → Cell → Option String
  send : Cell → Message → List String → List (String × String) → Except String Unit
  nowIso : String
  nowLocale : String

/-- Embeds `headers.indexOf(name)` returning `none` for `-1`. -/
def indexOfStr (headers : List String) (h : String) : Option Nat :=
  headers.findIdx? (fun x => x == h)

/-- The dispatch guard of line 815:
`(conditionValue === 1 && sentValue === "") || (conditionValue === 2)`. -/
def entryCondition (cond sent : Cell) : Bool :=
  (cond == Cell.num 1 && sent == Cell.str "") || cond == Cell.num 2

/-- The condition-column value is one of the designated trigger values
(`1` plain send, `2` force resend) — the spec's "signals send". -/
def signalsSend (v : Cell) : Prop := v = Cell.num 1 ∨ v = Cell.num 2

/-- The condition-column value is the distinguished force-resend trigger
value `2`. -/
def signalsForceResend (v : Cell) : Prop := v = Cell.num 2

/-- Stage 2 (lines 840-852): `realizationHeaders.reduce` mapping each
header to the row value at its index (`undefined` past the row end is
modelled as the equally-falsy blank cell). -/
def buildDataMapping (headers : List String) (row : List Cell) :
    List (String × Cell) :=
  headers.enum.map (fun p => (p.2, row.getD p.1 (Cell.str "")))

/-- Stage 3 (lines 854-869): each QR spec is consolidated (errors
propagate to the stage boundary) and an `<img src="cid:...">` marker is
assigned under its image name. -/
def qrDataMappingStage (specs : List QRSpec) (allRows : List (List Cell))
    (headers : List String) (mapping : List (String × Cell)) :
    Except String (List (String × Cell)) :=
  specs.foldlM
    (fun m q => (consolidateQrCodeData q allRows headers).map
      (fun _ => m ++ [(jsString q.imageName,
        Cell.str ("<img src=\"cid:" ++ jsString q.imageName ++ "\" alt=\"QR Code\">"))]))
    mapping

/-- Embeds `insertQrCodesIntoEmail(htmlBody, inlineImages, qrCodeObj)` (lines
775-783): render the QR blob (payload errors propagate, a failed fetch is
`null` and leaves everything unchanged), register it as an inline image
and swap the first `{{imageName}}` marker for an `<img>` tag. -/
def insertQrCodesIntoEmail (render : String → Cell → Option String)
    (html : String) (imgs : List (String × String)) (q : QRSpec) :
    Except String (String × List (String × String)) := do
  let blob? ← generateQrCodeBlob render q
  match blob? with
  | some blob =>
      let nm := jsString q.imageName
      .ok (replaceFirst html (⟨[lbrace, lbrace]⟩ ++ nm ++ ⟨[rbrace, rbrace]⟩)
            ("<img data-surl=\"cid:" ++ nm ++ "\" src=\"cid:" ++ nm ++ "\" alt=\"QR Code\">"),
          imgs ++ [(nm, blob)])
  | none => .ok (html, imgs)

/-- Stage 5 (lines 887-905): consolidate each spec again and thread the
HTML body and inline-image map through `insertQrCodesIntoEmail`. -/
def inlineStage (render : String → Cell → Option String)
    (specs : List QRSpec) (allRows : List (List Cell))
    (headers : List String) (html : String)
    (imgs : List (String × String)) :
    Except String (String × List (String × String)) :=
  specs.foldlM
    (fun hi q => do
      let c ← consolidateQrCodeData q allRows headers
      insertQrCodesIntoEmail render hi.1 hi.2 c)
    (html, imgs)

/-- Tail of the pipeline after the template is filled (stages 5 and 6,
lines 887-931): inline the QR artifacts into the filled message, then
dispatch.  Split out so the per-stage case analysis composes. -/
def pairFinish (env : Env) (qrSpecs : List QRSpec)
    (allRows : List (List Cell)) (headers : List String)
    (recipient : Cell) (tmpl : EmailTemplate) (msgObj : Message) :
    String × Bool :=
  match inlineStage env.render qrSpecs allRows headers msgObj.html
      tmpl.inlineImages with
  | .error e => (e ++ " at " ++ env.nowIso, false)
  | .ok hi =>
      match env.send recipient { msgObj with html := hi.1 }
          tmpl.attachments hi.2 with
      | .error e => (e ++ " at " ++ env.nowIso, true)
      | .ok _ => (env.nowIso, true)

/-- The six-stage pipeline run for one entered (row, rule) pair, lines
828-931.  Returns the status string written to the row's sent column
(`nowIso` on success, `message ++ " at " ++ timestamp` if the first
failing stage threw) and whether `GmailApp.sendEmail` was reached.  The
filled message is built from the stage-3 mapping extended with the
synthetic `recipient`/`conditionValue`/`sentValue` keys (appended last, so
they override row columns of the same name, like the JS object spread). -/
def pairPipeline (env : Env) (qrSpecs : List QRSpec)
    (allRows : List (List Cell)) (headers : List String) (topic : String)
    (recipient cv sv : Cell) (row : List Cell) : String × Bool :=
  match env.fetchTemplate topic with
  | .error e => (e ++ " at " ++ env.nowLocale, false)
  | .ok tmpl =>
      match qrDataMappingStage qrSpecs allRows headers
          (buildDataMapping headers row) with
      | .error e => (e ++ " at " ++ env.nowIso, false)
      | .ok mapping2 =>
          pairFinish env qrSpecs allRows headers recipient tmpl
            (fillInTemplateFromObject_ (mapping2 ++
              [("recipient", recipient), ("conditionValue", cv), ("sentValue", sv)])
              tmpl.message)

/-- One (row, rule) pair, lines 799-932: resolve the rule's condition and
sent columns (a miss throws a configuration error past the pair boundary,
hence `.error`), test the entry condition, and if entered run the
pipeline.  `.ok (some (column, status), dispatched)` is the status write
into the row's sent column; `.ok (none, false)` is the untouched no-op
pair. -/
def processPair (env : Env) (qrMap : String → List QRSpec)
    (headers : List String) (allRows : List (List Cell))
    (row : List Cell) (recipient : Cell) (p : Plan) :
    Except String (Option (Nat × String) × Bool) :=
  match indexOfStr headers p.conditionColumn, indexOfStr headers p.sentColumn with
  | some ci, some si =>
      let cv := row.getD ci (Cell.str "")
      let sv := row.getD si (Cell.str "")
      if entryCondition cv sv then
        let r := pairPipeline env (qrMap p.emailTopic) allRows headers
          p.emailTopic recipient cv sv row
        .ok (some (si, r.1), r.2)
      else .ok (none, false)
  | _, _ =>
      .error ("Columns " ++ p.conditionColumn ++ " or " ++ p.sentColumn ++
        " not found in realization data.")

/-- Result of a `processEmails` run: the status-cell writes (row index,
column index, value) in execution order, the recipients for which a
dispatch was attempted, and the configuration error that aborted the run,
if any. -/
structure RunResult where
  writes : List (Nat × Nat × String)
  sends : List Cell
  aborted : Option String
deriving DecidableEq, Repr

/-- The inner `planData.forEach` for one recipient row: accumulates writes
and dispatches until a configuration error escapes. -/
def runPlansLoop (env : Env) (qrMap : String → List QRSpec)
    (headers : List String) (allRows : List (List Cell)) (rowIdx : Nat)
    (row : List Cell) (recipient : Cell) :
    List Plan → List (Nat × Nat × String) × List Cell × Option String
  | [] => ([], [], none)
  | p :: ps =>
      match processPair env qrMap headers allRows row recipient p with
      | .error e => ([], [], some e)
      | .ok (w?, disp) =>
          let rest := runPlansLoop env qrMap headers allRows rowIdx row recipient ps
          ((match w? with
            | some (c, st) => [(rowIdx, c, st)]
            | none => []) ++ rest.1,
           (if disp then [recipient] else []) ++ rest.2.1,
           rest.2.2)

/-- The outer `realizationData.forEach`: rows in order, stopping at the
first configuration error. -/
def runRowsLoop (env : Env) (qrMap : String → List QRSpec)
    (headers : List String) (allRows : List (List Cell))
    (recipientIdx : Nat) (plans : List Plan) :
    Nat → List (List Cell) → List (Nat × Nat × String) × List Cell × Option String
  | _, [] => ([], [], none)
  | idx, row :: rest =>
      let recipient := row.getD recipientIdx (Cell.str "")
      let this := runPlansLoop env qrMap headers allRows idx row recipient plans
      match this.2.2 with
      | some e => (this.1, this.2.1, some e)
      | none =>
          let next := runRowsLoop env qrMap headers allRows recipientIdx plans
            (idx + 1) rest
          (this.1 ++ next.1, this.2.1 ++ next.2.1, next.2.2)

/-- Embeds `processEmails()` (second revision, lines 785-935) over an explicit
snapshot: `headers` is the realization header row, `rows` the data rows,
`plans` the parsed plan, `qrMap` the per-topic QR specs of `SHEETS_DATA`,
`recipientCol` the configured recipient column name. -/
def processEmails (env : Env) (qrMap : String → List QRSpec)
    (recipientCol : String) (headers : List String)
    (rows : List (List Cell)) (plans : List Plan) : RunResult :=
  match indexOfStr headers recipientCol with
  | none =>
      ⟨[], [], some ("Recipient column (" ++ recipientCol ++
        ") not found in realization data.")⟩
  | some rIdx =>
      let r := runRowsLoop env qrMap headers rows rIdx plans 0 rows
      ⟨r.1, r.2.1, r.2.2⟩

/-- Reference semantics for one pair, with no exception channel: `none`
when the pair is a no-op or its columns are unresolved, otherwise the
write and dispatch flag the pipeline yields. -/
def pairOutcome (env : Env) (qrMap : String → List QRSpec)
    (headers : List String) (allRows : List (List Cell))
    (row : List Cell) (recipient : Cell) (p : Plan) :
    Option ((Nat × String) × Bool) :=
  match indexOfStr headers p.conditionColumn, indexOfStr headers p.sentColumn with
  | some ci, some si =>
      if entryCondition (row.getD ci (Cell.str "")) (row.getD si (Cell.str "")) then
        some ((si, (pairPipeline env (qrMap p.emailTopic) allRows headers
            p.emailTopic recipient (row.getD ci (Cell.str ""))
            (row.getD si (Cell.str "")) row).1),
          (pairPipeline env (qrMap p.emailTopic) allRows headers
            p.emailTopic recipient (row.getD ci (Cell.str ""))
            (row.getD si (Cell.str "")) row).2)
      else none
  | _, _ => none

/-- Reference semantics of a whole run with every (row, rule) pair
processed independently — no abort channel at all. -/
def independentRun (env : Env) (qrMap : String → List QRSpec)
    (headers : List String) (allRows : List (List Cell))
    (recipientIdx : Nat) (plans : List Plan) :
    Nat → List (List Cell) → List (Nat × Nat × String) × List Cell
  | _, [] => ([], [])
  | idx, row :: rest =>
      let recipient := row.getD recipientIdx (Cell.str "")
      let ws := plans.filterMap (fun p =>
        (pairOutcome env qrMap headers allRows row recipient p).map
          (fun o => (idx, o.1.1, o.1.2)))
      let ss := plans.filterMap (fun p =>
        (pairOutcome env qrMap headers allRows row recipient p).bind
          (fun o => if o.2 then some recipient else none))
      let next := independentRun env qrMap headers allRows recipientIdx plans
        (idx + 1) rest
      (ws ++ next.1, ss ++ next.2)

/-- Shape of every persisted status value: the success timestamp, or an
error message carrying one of the two timestamp renderings. -/
def statusShape (env : Env) (s : String) : Prop :=
  s = env.nowIso ∨ (∃ e, s = e ++ " at " ++ env.nowIso) ∨
    (∃ e, s = e ++ " at " ++ env.nowLocale)

/- ### TransactionIngestor: `parseTransactionNote`
   (src/FioParser.js, first revision, lines 65-83). -/

/-- JS `String.prototype.split(' ')`: split at every space, keeping empty
components between consecutive separators and at the ends. -/
def splitSp : List Char → List (List Char)
  | [] => [[]]
  | c :: cs =>
      if c = ' ' then [] :: splitSp cs
      else
        match splitSp cs with
        | t :: ts => (c :: t) :: ts
        | [] => [[c]]

/-- JS `String.prototype.trim()` restricted to the space separators that
can occur after the digit-or-space cleanup. -/
def trimC (cs : List Char) : List Char :=
  ((cs.dropWhile (· = ' ')).reverse.dropWhile (· = ' ')).reverse

/-- Embeds `parseTransactionNote(note)` (first revision of src/FioParser.js,
lines 65-83): falsy note (absent or empty) yields no keys; otherwise
non-digits become spaces, the string is split on spaces, blank parts are
dropped and exactly-8-character parts are kept, joined with commas. -/
def parseTransactionNote (note : Option String) : String × Nat :=
  match note with
  | none => ("", 0)
  | some note =>
      if note = "" then ("", 0)
      else
        let cleaned := note.data.map (fun c => if c.isDigit then c else ' ')
        let parts := (splitSp cleaned).filter (fun p => trimC p ≠ [])
        let valid := parts.filter (fun p => p.length = 8)
        (String.intercalate "," (valid.map fun p => (⟨p⟩ : String)), valid.length)

/-- Maximal runs of consecutive digit characters in a string — the
candidate reference tokens the spec describes. -/
def digitRuns : List Char → List (List Char)
  | [] => []
  | c :: cs =>
      if c.isDigit then
        (c :: cs.takeWhile Char.isDigit) :: digitRuns (cs.dropWhile Char.isDigit)
      else digitRuns cs
termination_by cs => cs.length
decreasing_by
  · simp only [List.length_cons]
    have : (cs.dropWhile Char.isDigit).length ≤ cs.length := by
      induction cs with
      | nil => simp [List.dropWhile]
      | cons a l ih =>
          by_cases h : Char.isDigit a
          · simp [List.dropWhile, h]; omega
          · simp [List.dropWhile, h]
    omega
  · simp

/-- The spec-side characterization of the parsed keys: the maximal digit
runs of length exactly 8, in order. -/
def eightDigitKeys (s : String) : List String :=
  ((digitRuns s.data).filter (fun r => r.length = 8)).map fun r => (⟨r⟩ : String)

/- ### Lemmas about the checksum algorithm. -/

theorem foldl_mod97 (cs : List Char) (r : Nat) :
    cs.foldl (fun r c => (r * 10 + digitVal c) % 97) (r % 97) =
      (cs.foldl (fun a c => a * 10 + digitVal c) r) % 97 := by
  induction cs generalizing r with
  | nil => simp
  | cons c cs ih =>
      simp only [List.foldl_cons]
      have h : (r % 97 * 10 + digitVal c) % 97 = (r * 10 + digitVal c) % 97 := by
        omega
      rw [h]
      exact ih (r * 10 + digitVal c)

theorem modulo97_eq (cs : List Char) : modulo97 cs = strNat cs % 97 := by
  have h := foldl_mod97 cs 0
  simpa [modulo97, strNat] using h

theorem strNat_shift (b : List Char) (r : Nat) :
    b.foldl (fun a c => a * 10 + digitVal c) r = r * 10 ^ b.length + strNat b := by
  induction b generalizing r with
  | nil => simp [strNat]
  | cons c b ih =>
      simp only [List.foldl_cons, List.length_cons, strNat]
      rw [ih (r * 10 + digitVal c), ih (0 * 10 + digitVal c)]
      ring

theorem strNat_append (a b : List Char) :
    strNat (a ++ b) = strNat a * 10 ^ b.length + strNat b := by
  unfold strNat
  rw [List.foldl_append]
  exact strNat_shift b (List.foldl (fun a c => a * 10 + digitVal c) 0 a)

theorem checkDigits_val :
    ∀ r : Nat, r < 97 →
      strNat (padStart 2 (Nat.repr (98 - r))).data = 98 - r ∧
        (padStart 2 (Nat.repr (98 - r))).data.length = 2 := by decide

theorem iban_mod97 (acc bank pfx : String) :
    strNat (bbanOf acc bank pfx ++ "3235" ++ checkDigitsOf acc bank pfx).data % 97
      = 1 := by
  set A := (bbanOf acc bank pfx ++ "3235").data with hA
  have hdata : (bbanOf acc bank pfx ++ "3235" ++ checkDigitsOf acc bank pfx).data
      = A ++ (checkDigitsOf acc bank pfx).data := rfl
  have hprobe : (bbanOf acc bank pfx ++ "323500").data = A ++ ['0', '0'] := by
    show (bbanOf acc bank pfx).data ++ "323500".data
        = (bbanOf acc bank pfx).data ++ "3235".data ++ ['0', '0']
    rw [List.append_assoc]
    rfl
  have hM : modulo97 (bbanOf acc bank pfx ++ "323500").data
      = (strNat A * 100) % 97 := by
    rw [hprobe, modulo97_eq, strNat_append]
    norm_num [show strNat ['0', '0'] = 0 from rfl]
  have hr : (strNat A * 100) % 97 < 97 := Nat.mod_lt _ (by norm_num)
  have hcs : checksumOf acc bank pfx = 98 - (strNat A * 100) % 97 := by
    rw [checksumOf, hM]
    omega
  have hval := checkDigits_val ((strNat A * 100) % 97) hr
  rw [hdata, strNat_append, checkDigitsOf, hcs, hval.1, hval.2]
  have h100 : (10 : Nat) ^ 2 = 100 := by norm_num
  rw [h100]
  omega

/-- Claim C1, counterexample: on the claim's own example input
(account "123456789", bank "0800", prefix "19") the code returns
"CZ75 0800 0000 1901 2345 6789" (BBAN `0800 000019 0123456789`, check
digits 75), not the claimed "CZ65 0800 0000 1900 1234 5678" — the claimed
string even embeds a different BBAN (`...190012345678`). -/
theorem claimC1_counterexample :
    convertToIBAN (some "123456789") (some "0800") (some "19")
      = .ok "CZ75 0800 0000 1901 2345 6789" ∧
    "CZ75 0800 0000 1901 2345 6789" ≠ "CZ65 0800 0000 1900 1234 5678" :=
  ⟨rfl, by decide⟩

/-- Claim C1, amended: for every accepted input triple the identifier
`convertToIBAN` returns is `CZ` ++ check digits ++ BBAN (formatted in
blocks of four), and it passes ISO 7064 mod-97 validation — with "CZ"
rendered as the digits 3235 and the check digits moved behind the BBAN,
the decimal number is congruent to 1 modulo 97.  On the example input
(account "123456789", bank "0800", prefix "19") the check digits are 75
and the formatted output is "CZ75 0800 0000 1901 2345 6789". -/
theorem claimC1 :
    (∀ acc bank pfx : String,
        convertToIBAN (some acc) (some bank) (some pfx)
          = .ok (formatIBAN ("CZ" ++ checkDigitsOf acc bank pfx ++ bbanOf acc bank pfx)) ∧
        strNat (bbanOf acc bank pfx ++ "3235" ++ checkDigitsOf acc bank pfx).data % 97
          = 1) ∧
    checksumOf "123456789" "0800" "19" = 75 ∧
    convertToIBAN (some "123456789") (some "0800") (some "19")
      = .ok "CZ75 0800 0000 1901 2345 6789" :=
  ⟨fun acc bank pfx => ⟨rfl, iban_mod97 acc bank pfx⟩, rfl, rfl⟩

/-- Claim C7, counterexample: an account number that is empty *after
stripping non-digits* ("abc") is not rejected — `convertToIBAN` pads it
to all zeros and succeeds, so "empty after stripping" is not an
invalid-input case. -/
theorem claimC7_counterexample :
    stripNonDigits "abc" = "" ∧
    convertToIBAN (some "abc") (some "0800") none
      = .ok "CZ75 0800 0000 0000 0000 0000" :=
  ⟨rfl, rfl⟩

/-- Claim C7, amended: `convertToIBAN` fails with the invalid-input error
exactly when the account number or the bank code argument is absent
(JS null/undefined); a present argument always yields an identifier even
when it strips to the empty digit string (it is zero-padded), and an
absent prefix defaults to the all-zero 6-digit BBAN segment. -/
theorem claimC7 :
    (∀ (bank pfx? : Option String),
        convertToIBAN none bank pfx?
          = .error "Account number and bank code are required parameters") ∧
    (∀ (acc pfx? : Option String),
        convertToIBAN acc none pfx?
          = .error "Account number and bank code are required parameters") ∧
    (∀ (acc bank : String) (pfx? : Option String),
        convertToIBAN (some acc) (some bank) pfx?
          = .ok (ibanOf acc bank (pfx?.getD ""))) ∧
    (∀ acc bank : String,
        bbanOf acc bank ""
          = padStart 4 (stripNonDigits bank) ++ "000000" ++
              padStart 10 (stripNonDigits acc)) :=
  ⟨fun bank _ => by cases bank <;> rfl,
   fun acc _ => by cases acc <;> rfl,
   fun _ _ _ => rfl,
   fun _ _ => rfl⟩

/-- Claim C4: `generatePaymentQrData` emits exactly
`SPD*1.0*ACC:<identifier>*AM:<amount>*CC:<currency>` followed by `*VS:`
only for a truthy (non-empty) variable symbol and then `*MSG:` only for a
truthy message, in this fixed order, where the identifier is the checksum
identifier `convertToIBAN` builds from the account number and bank code —
not the literal account number — and the amount carries exactly two
decimal places. -/
theorem claimC4 (acc bank cur vs msg : Cell) (a : Int) :
    generatePaymentQrData acc bank cur (.num a) vs msg
      = .ok (paymentPayloadSpec (ibanOf (jsString acc) (jsString bank) "")
          (toFixed2 a) (jsString cur)
          (if vs.truthy then some (jsString vs) else none)
          (if msg.truthy then some (jsString msg) else none)) ∧
    toFixed2 a = toString a ++ "." ++ "00" ∧
    ("00" : String).length = 2 := by
  refine ⟨?_, ?_, rfl⟩
  · cases hvs : vs.truthy <;> cases hmsg : msg.truthy <;>
      simp [generatePaymentQrData, paymentPayloadSpec, convertToIBAN,
        cellToFixed2, hvs, hmsg, Except.bind] <;> rfl
  · rw [toFixed2, String.append_assoc]
    rfl

/-- Claim C6: a QR spec with both `variableSymbol` and
`variableSymbolColumn` non-empty (JS-truthy) makes
`consolidateQrCodeData` fail with the configuration error, and both
pipeline stages that touch QR specs fail with that same error for *every*
renderer oracle — the result does not depend on `render` at all, because
the consolidation error is raised before `generateQrCodeBlob` (and hence
the external fetch) is ever reached for that artifact. -/
theorem claimC6 (q : QRSpec) (rows : List (List Cell))
    (headers : List String) (mapping : List (String × Cell))
    (render : String → Cell → Option String) (html : String)
    (imgs : List (String × String))
    (hvs : q.variableSymbol.truthy = true)
    (hcol : q.variableSymbolColumn.truthy = true) :
    consolidateQrCodeData q rows headers
      = .error "Only one of variableSymbol or variableSymbolColumn should be non-empty." ∧
    qrDataMappingStage [q] rows headers mapping
      = .error "Only one of variableSymbol or variableSymbolColumn should be non-empty." ∧
    inlineStage render [q] rows headers html imgs
      = .error "Only one of variableSymbol or variableSymbolColumn should be non-empty." := by
  have hc : consolidateQrCodeData q rows headers
      = .error "Only one of variableSymbol or variableSymbolColumn should be non-empty." := by
    simp [consolidateQrCodeData, hvs, hcol]
  refine ⟨hc, ?_, ?_⟩
  · simp [qrDataMappingStage, hc, Except.map]
  · simp [inlineStage, hc, Except.bind]
    rfl

/-- Claim C6, witness instantiation at a concrete spec with both fields
set. -/
theorem claimC6_witness :
    consolidateQrCodeData
        ⟨.str "T", .str "qr", .str "1", .str "0800", .str "CZK", .num 5,
          .str "42", .str "VSCOL", .str "", .num 300⟩ [] []
      = .error "Only one of variableSymbol or variableSymbolColumn should be non-empty." ∧
    qrDataMappingStage
        [⟨.str "T", .str "qr", .str "1", .str "0800", .str "CZK", .num 5,
          .str "42", .str "VSCOL", .str "", .num 300⟩] [] [] []
      = .error "Only one of variableSymbol or variableSymbolColumn should be non-empty." ∧
    inlineStage (fun _ _ => none)
        [⟨.str "T", .str "qr", .str "1", .str "0800", .str "CZK", .num 5,
          .str "42", .str "VSCOL", .str "", .num 300⟩] [] [] "" []
      = .error "Only one of variableSymbol or variableSymbolColumn should be non-empty." :=
  claimC6 _ _ _ _ _ _ _ rfl rfl

/- ### Lemmas about the template scanner. -/

theorem fillAux_braceFree (repl : List Char → List Char) (cs : List Char)
    (h : lbrace ∉ cs) : fillAux repl .outside cs = cs := by
  induction cs with
  | nil => rfl
  | cons c cs ih =>
      have hc : c ≠ lbrace := fun he => h (he ▸ List.mem_cons_self c cs)
      simp only [fillAux, if_neg hc]
      rw [ih (fun hm => h (List.mem_cons_of_mem c hm))]

theorem fillAux_append (repl : List Char → List Char) (p t : List Char)
    (h : lbrace ∉ p) :
    fillAux repl .outside (p ++ t) = p ++ fillAux repl .outside t := by
  induction p with
  | nil => rfl
  | cons c p ih =>
      have hc : c ≠ lbrace := fun he => h (he ▸ List.mem_cons_self c p)
      simp only [List.cons_append, fillAux, if_neg hc]
      show c :: fillAux repl .outside (p ++ t) = c :: (p ++ fillAux repl .outside t)
      rw [ih (fun hm => h (List.mem_cons_of_mem c hm))]

theorem fillAux_open (repl : List Char → List Char) (cs : List Char) :
    fillAux repl .outside (lbrace :: cs) = fillAux repl .oneBrace cs := by
  simp [fillAux]

theorem fillAux_open2 (repl : List Char → List Char) (cs : List Char) :
    fillAux repl .oneBrace (lbrace :: cs) = fillAux repl (.inKey []) cs := by
  simp [fillAux]

theorem fillAux_inKey (repl : List Char → List Char) (k : List Char) :
    ∀ (buf t : List Char), (∀ c ∈ k, c ≠ lbrace ∧ c ≠ rbrace) →
      buf ++ k ≠ [] →
      fillAux repl (.inKey buf) (k ++ rbrace :: rbrace :: t)
        = repl (buf ++ k) ++ fillAux repl .outside t := by
  induction k with
  | nil =>
      intro buf t _ hne
      have hbuf : buf ≠ [] := by simpa using hne
      have h1 : rbrace ≠ lbrace := by decide
      simp only [List.nil_append, fillAux, if_neg h1, if_pos rfl]
      simp [List.isEmpty_iff, hbuf]
  | cons c k ih =>
      intro buf t hk hne
      have hc := hk c (List.mem_cons_self c k)
      simp only [List.cons_append, fillAux, if_neg hc.1, if_neg hc.2]
      show fillAux repl (.inKey (buf ++ [c])) (k ++ rbrace :: rbrace :: t)
          = repl (buf ++ c :: k) ++ fillAux repl .outside t
      rw [ih (buf ++ [c]) t (fun x hx => hk x (List.mem_cons_of_mem c hx))
        (by simp)]
      simp

theorem fill_renderT (data : List (String × Cell)) (l : List (String × String)) :
    ∀ s0 : String, wfTemplate s0 l →
      fillString data (renderT s0 l) = filledT (resolveKey data) s0 l := by
  induction l with
  | nil =>
      intro s0 hwf
      apply String.ext
      show fillAux _ .outside s0.data = s0.data
      exact fillAux_braceFree _ _ hwf.1.1
  | cons p rest ih =>
      intro s0 hwf
      obtain ⟨k, s⟩ := p
      have hk := (hwf.2 (k, s) (List.mem_cons_self _ _))
      apply String.ext
      show fillAux _ .outside (renderT s0 ((k, s) :: rest)).data
          = (filledT (resolveKey data) s0 ((k, s) :: rest)).data
      have hdata : (renderT s0 ((k, s) :: rest)).data
          = s0.data ++ (lbrace :: lbrace :: (k.data ++ rbrace :: rbrace ::
              (renderT s rest).data)) := by
        show (s0 ++ ⟨[lbrace, lbrace]⟩ ++ k ++ ⟨[rbrace, rbrace]⟩ ++ renderT s rest).data = _
        simp [List.append_assoc]
      rw [hdata, fillAux_append _ _ _ hwf.1.1]
      have hkey : ∀ c ∈ k.data, c ≠ lbrace ∧ c ≠ rbrace := by
        intro c hc
        exact ⟨fun he => hk.2.1.1 (he ▸ hc), fun he => hk.2.1.2 (he ▸ hc)⟩
      have hkne : ([] : List Char) ++ k.data ≠ [] := by
        simp only [List.nil_append]
        intro hd
        exact hk.1 (by cases k; simp_all)
      rw [fillAux_open, fillAux_open2, fillAux_inKey _ _ _ _ hkey hkne]
      have hrest : fillAux (fun kk => (resolveKey data ⟨kk⟩).data) .outside
          (renderT s rest).data = (filledT (resolveKey data) s rest).data := by
        have := ih s ⟨hk.2.2, fun q hq => hwf.2 q (List.mem_cons_of_mem _ hq)⟩
        exact congrArg String.data this
      rw [hrest]
      show s0.data ++ ((resolveKey data k).data ++ (filledT (resolveKey data) s rest).data)
          = (s0 ++ resolveKey data k ++ filledT (resolveKey data) s rest).data
      simp [List.append_assoc]

theorem braceFree_append (a b : String) :
    braceFree (a ++ b) ↔ braceFree a ∧ braceFree b := by
  show braceFree ⟨a.data ++ b.data⟩ ↔ _
  simp only [braceFree, List.mem_append]
  tauto

theorem escapeChar_braceFree (c : Char) (h1 : c ≠ lbrace) (h2 : c ≠ rbrace) :
    lbrace ∉ escapeChar c ∧ rbrace ∉ escapeChar c := by
  unfold escapeChar
  split_ifs <;> try decide
  constructor <;> simp only [List.mem_singleton] <;> intro he
  · exact h1 he.symm
  · exact h2 he.symm

theorem escapeData_braceFree (s : String) (h : braceFree s) :
    braceFree (escapeData_ s) := by
  obtain ⟨h1, h2⟩ := h
  constructor <;> intro hm <;>
    · rw [show (escapeData_ s).data = s.data.flatMap escapeChar from rfl,
        List.mem_flatMap] at hm
      obtain ⟨c, hc, hmem⟩ := hm
      have hcl : c ≠ lbrace := fun he => h1 (he ▸ hc)
      have hcr : c ≠ rbrace := fun he => h2 (he ▸ hc)
      have := escapeChar_braceFree c hcl hcr
      tauto

theorem filledT_braceFree (f : String → String) (l : List (String × String)) :
    ∀ s0 : String, braceFree s0 →
      (∀ p ∈ l, braceFree p.2 ∧ braceFree (f p.1)) →
      braceFree (filledT f s0 l) := by
  induction l with
  | nil => intro s0 h0 _; exact h0
  | cons p rest ih =>
      intro s0 h0 hl
      obtain ⟨k, s⟩ := p
      have hp := hl (k, s) (List.mem_cons_self _ _)
      show braceFree (s0 ++ f k ++ filledT f s rest)
      rw [braceFree_append, braceFree_append]
      exact ⟨⟨h0, hp.2⟩, ih s hp.1 (fun q hq => hl q (List.mem_cons_of_mem _ hq))⟩

/-- Claim C8, counterexample: the key "amount" *is* present in the
mapping, bound to the number 0, whose escaped rendering is "0" — yet the
placeholder resolves to the empty string (because the substitution
computes `data[key] || ""`), so a present key is not always replaced by
its escaped value. -/
theorem claimC8_counterexample :
    fillInTemplateFromObject_ [("amount", Cell.num 0)]
        ⟨"\x7b\x7bamount\x7d\x7d", "", ""⟩ = ⟨"", "", ""⟩ ∧
    escapeData_ (jsString (Cell.num 0)) = "0" ∧
    ("" : String) ≠ "0" := by
  refine ⟨?_, rfl, by decide⟩
  rfl

/-- Claim C8, amended: over a well-formed template (alternating
brace-free literal segments and non-empty brace-free keys) the token
replacement resolves *every* placeholder: a key present with a truthy
value becomes its escaped value, a key that is absent — or present but
bound to a falsy value — becomes the empty string, the substitution is a
total function, and (when the substituted values contain no braces) no
literal placeholder remains in the output. -/
theorem claimC8 (data : List (String × Cell)) (s0 : String)
    (l : List (String × String)) (hwf : wfTemplate s0 l) :
    fillString data (renderT s0 l) = filledT (resolveKey data) s0 l ∧
    (∀ k, objGet data k = none → resolveKey data k = "") ∧
    (∀ k v, objGet data k = some v → v.truthy = true →
      resolveKey data k = escapeData_ (jsString v)) ∧
    (∀ k v, objGet data k = some v → v.truthy = false →
      resolveKey data k = "") ∧
    ((∀ p ∈ l, braceFree (jsString ((objGet data p.1).getD (Cell.str "")))) →
      braceFree (fillString data (renderT s0 l))) := by
  refine ⟨fill_renderT data l s0 hwf, ?_, ?_, ?_, ?_⟩
  · intro k hk
    simp [resolveKey, hk]
  · intro k v hk hv
    simp [resolveKey, hk, hv]
  · intro k v hk hv
    simp [resolveKey, hk, hv]
  · intro hvals
    rw [fill_renderT data l s0 hwf]
    apply filledT_braceFree
    · exact hwf.1
    · intro p hp
      refine ⟨(hwf.2 p hp).2.2, ?_⟩
      have hbf := hvals p hp
      rcases ho : objGet data p.1 with _ | v
      · simp [resolveKey, ho]
        exact ⟨by simp, by simp⟩
      · rw [ho] at hbf
        simp only [Option.getD_some] at hbf
        cases hv : v.truthy
        · simp [resolveKey, ho, hv]
          exact ⟨by simp, by simp⟩
        · simp only [resolveKey, ho, hv, if_pos]
          exact escapeData_braceFree _ hbf

/-- Claim C8, witness instantiation: a concrete well-formed template and
mapping. -/
theorem claimC8_witness :
    wfTemplate "Hi " [("name", "!")] ∧
    (fillString [("name", Cell.str "Ada")] (renderT "Hi " [("name", "!")])
        = filledT (resolveKey [("name", Cell.str "Ada")]) "Hi " [("name", "!")] ∧
      (∀ k, objGet [("name", Cell.str "Ada")] k = none →
        resolveKey [("name", Cell.str "Ada")] k = "") ∧
      (∀ k v, objGet [("name", Cell.str "Ada")] k = some v → v.truthy = true →
        resolveKey [("name", Cell.str "Ada")] k = escapeData_ (jsString v)) ∧
      (∀ k v, objGet [("name", Cell.str "Ada")] k = some v → v.truthy = false →
        resolveKey [("name", Cell.str "Ada")] k = "") ∧
      ((∀ p ∈ [("name", "!")],
          braceFree (jsString ((objGet [("name", Cell.str "Ada")] p.1).getD (Cell.str "")))) →
        braceFree (fillString [("name", Cell.str "Ada")]
          (renderT "Hi " [("name", "!")])))) :=
  ⟨by decide, claimC8 [("name", Cell.str "Ada")] "Hi " [("name", "!")] (by decide)⟩

/-- Claim C10: a placeholder whose key is present in the mapping but
bound to a falsy value — the number 0, the empty string, `false` or
`null` — resolves to the empty string instead of a rendering of the
value, so the placeholder silently disappears from the filled text. -/
theorem claimC10 (data : List (String × Cell)) (k : String) (v : Cell)
    (s0 s1 : String) (hwf : wfTemplate s0 [(k, s1)])
    (hv : objGet data k = some v)
    (hfalsy : v = .num 0 ∨ v = .str "" ∨ v = .bool false ∨ v = .null) :
    resolveKey data k = "" ∧
    fillString data (renderT s0 [(k, s1)]) = s0 ++ s1 := by
  have ht : v.truthy = false := by
    rcases hfalsy with h | h | h | h <;> subst h <;> rfl
  have hres : resolveKey data k = "" := by simp [resolveKey, hv, ht]
  refine ⟨hres, ?_⟩
  rw [fill_renderT data [(k, s1)] s0 hwf]
  show s0 ++ resolveKey data k ++ filledT (resolveKey data) s1 [] = s0 ++ s1
  rw [hres]
  show s0 ++ "" ++ s1 = s0 ++ s1
  rw [String.append_empty]

/-- Claim C10, witness instantiation: mapping `amount ↦ 0` and template
`Pay {{amount}} now`. -/
theorem claimC10_witness :
    wfTemplate "Pay " [("amount", " now")] ∧
    objGet [("amount", Cell.num 0)] "amount" = some (Cell.num 0) ∧
    (resolveKey [("amount", Cell.num 0)] "amount" = "" ∧
      fillString [("amount", Cell.num 0)] (renderT "Pay " [("amount", " now")])
        = "Pay " ++ " now") :=
  ⟨by decide, by decide,
    claimC10 [("amount", Cell.num 0)] "amount" (Cell.num 0) "Pay " " now"
      (by decide) (by decide) (Or.inl rfl)⟩

/-- Shared concrete environment for witness instantiations: drafts always
found, renderer always succeeds, dispatch always succeeds. -/
def envTest : Env :=
  { fetchTemplate := fun t => .ok ⟨⟨t, "T", "H"⟩, [], []⟩
    render := fun _ _ => some "B"
    send := fun _ _ _ _ => .ok ()
    nowIso := "NOW"
    nowLocale := "LOCAL" }

/-- Claim C2: a (row, rule) pair's dispatch pipeline is entered iff the
row's condition value is a trigger value ("signals send": `1` or `2`) and
the status cell is blank or the condition is the force-resend trigger
(`2`); for every other condition value the pair is a no-op — `processPair`
returns no write and no dispatch, leaving the cells untouched. -/
theorem claimC2 (env : Env) (qrMap : String → List QRSpec)
    (headers : List String) (allRows : List (List Cell)) (row : List Cell)
    (recipient : Cell) (p : Plan) (ci si : Nat)
    (hci : indexOfStr headers p.conditionColumn = some ci)
    (hsi : indexOfStr headers p.sentColumn = some si) :
    (entryCondition (row.getD ci (Cell.str "")) (row.getD si (Cell.str "")) = true ↔
      (signalsSend (row.getD ci (Cell.str "")) ∧
        (row.getD si (Cell.str "") = Cell.str "" ∨
          signalsForceResend (row.getD ci (Cell.str ""))))) ∧
    (entryCondition (row.getD ci (Cell.str "")) (row.getD si (Cell.str "")) = false →
      processPair env qrMap headers allRows row recipient p = .ok (none, false)) := by
  constructor
  · simp only [entryCondition, signalsSend, signalsForceResend,
      Bool.or_eq_true, Bool.and_eq_true, beq_iff_eq]
    tauto
  · intro hfalse
    simp only [processPair, hci, hsi]
    rw [hfalse]
    simp

/-- Claim C2, witness instantiation: condition value `0` is a no-op. -/
theorem claimC2_witness :
    indexOfStr ["Recipient", "C", "S"] "C" = some 1 ∧
    indexOfStr ["Recipient", "C", "S"] "S" = some 2 ∧
    ((entryCondition ([Cell.str "a@b", Cell.num 0, Cell.str ""].getD 1 (Cell.str ""))
        ([Cell.str "a@b", Cell.num 0, Cell.str ""].getD 2 (Cell.str "")) = true ↔
      (signalsSend ([Cell.str "a@b", Cell.num 0, Cell.str ""].getD 1 (Cell.str "")) ∧
        ([Cell.str "a@b", Cell.num 0, Cell.str ""].getD 2 (Cell.str "") = Cell.str "" ∨
          signalsForceResend ([Cell.str "a@b", Cell.num 0, Cell.str ""].getD 1 (Cell.str ""))))) ∧
      (entryCondition ([Cell.str "a@b", Cell.num 0, Cell.str ""].getD 1 (Cell.str ""))
        ([Cell.str "a@b", Cell.num 0, Cell.str ""].getD 2 (Cell.str "")) = false →
        processPair envTest (fun _ => []) ["Recipient", "C", "S"]
          [[Cell.str "a@b", Cell.num 0, Cell.str ""]]
          [Cell.str "a@b", Cell.num 0, Cell.str ""] (Cell.str "a@b") ⟨"T", "C", "S"⟩
          = .ok (none, false))) :=
  ⟨by decide, by decide,
    claimC2 envTest (fun _ => []) ["Recipient", "C", "S"]
      [[Cell.str "a@b", Cell.num 0, Cell.str ""]]
      [Cell.str "a@b", Cell.num 0, Cell.str ""] (Cell.str "a@b") ⟨"T", "C", "S"⟩
      1 2 (by decide) (by decide)⟩

/- ### Lemmas about the orchestrator run. -/

theorem pairFinish_shape (env : Env) (qrSpecs : List QRSpec)
    (allRows : List (List Cell)) (headers : List String)
    (recipient : Cell) (tmpl : EmailTemplate) (msgObj : Message) :
    statusShape env
      (pairFinish env qrSpecs allRows headers recipient tmpl msgObj).1 := by
  unfold pairFinish
  split
  · exact Or.inr (Or.inl ⟨_, rfl⟩)
  split
  · exact Or.inr (Or.inl ⟨_, rfl⟩)
  · exact Or.inl rfl

theorem pairPipeline_shape (env : Env) (qrSpecs : List QRSpec)
    (allRows : List (List Cell)) (headers : List String) (topic : String)
    (recipient cv sv : Cell) (row : List Cell) :
    statusShape env
      (pairPipeline env qrSpecs allRows headers topic recipient cv sv row).1 := by
  unfold pairPipeline
  split
  · exact Or.inr (Or.inr ⟨_, rfl⟩)
  split
  · exact Or.inr (Or.inl ⟨_, rfl⟩)
  · exact pairFinish_shape env qrSpecs allRows headers recipient _ _

theorem processPair_ok (env : Env) (qrMap : String → List QRSpec)
    (headers : List String) (allRows : List (List Cell))
    (row : List Cell) (recipient : Cell) (p : Plan) (ci si : Nat)
    (hci : indexOfStr headers p.conditionColumn = some ci)
    (hsi : indexOfStr headers p.sentColumn = some si) :
    processPair env qrMap headers allRows row recipient p
      = .ok (match pairOutcome env qrMap headers allRows row recipient p with
             | some o => (some o.1, o.2)
             | none => (none, false)) := by
  unfold processPair pairOutcome
  rw [hci, hsi]
  by_cases h : entryCondition (row[ci]?.getD (Cell.str ""))
      (row[si]?.getD (Cell.str "")) = true
  · simp [h]
  · simp only [Bool.not_eq_true] at h
    simp [h]

theorem runPlansLoop_eq (env : Env) (qrMap : String → List QRSpec)
    (headers : List String) (allRows : List (List Cell)) (rowIdx : Nat)
    (row : List Cell) (recipient : Cell) (plans : List Plan)
    (hcols : ∀ p ∈ plans, (indexOfStr headers p.conditionColumn).isSome
      ∧ (indexOfStr headers p.sentColumn).isSome) :
    runPlansLoop env qrMap headers allRows rowIdx row recipient plans
      = (plans.filterMap (fun p =>
          (pairOutcome env qrMap headers allRows row recipient p).map
            (fun o => (rowIdx, o.1.1, o.1.2))),
         plans.filterMap (fun p =>
          (pairOutcome env qrMap headers allRows row recipient p).bind
            (fun o => if o.2 then some recipient else none)),
         none) := by
  induction plans with
  | nil => rfl
  | cons p ps ih =>
      have hp := hcols p (List.mem_cons_self _ _)
      obtain ⟨ci, hci⟩ := Option.isSome_iff_exists.mp hp.1
      obtain ⟨si, hsi⟩ := Option.isSome_iff_exists.mp hp.2
      have hps := ih (fun q hq => hcols q (List.mem_cons_of_mem _ hq))
      unfold runPlansLoop
      rw [processPair_ok env qrMap headers allRows row recipient p ci si hci hsi,
        hps]
      cases ho : pairOutcome env qrMap headers allRows row recipient p with
      | none => simp [List.filterMap_cons, ho]
      | some o => cases o2 : o.2 <;> simp [List.filterMap_cons, ho, o2]

theorem runRowsLoop_eq (env : Env) (qrMap : String → List QRSpec)
    (headers : List String) (allRows : List (List Cell))
    (recipientIdx : Nat) (plans : List Plan)
    (hcols : ∀ p ∈ plans, (indexOfStr headers p.conditionColumn).isSome
      ∧ (indexOfStr headers p.sentColumn).isSome) :
    ∀ (idx : Nat) (rows : List (List Cell)),
      runRowsLoop env qrMap headers allRows recipientIdx plans idx rows
        = ((independentRun env qrMap headers allRows recipientIdx plans idx rows).1,
           (independentRun env qrMap headers allRows recipientIdx plans idx rows).2,
           none) := by
  intro idx rows
  induction rows generalizing idx with
  | nil => rfl
  | cons row rest ih =>
      unfold runRowsLoop independentRun
      simp only [runPlansLoop_eq env qrMap headers allRows idx row
        (row.getD recipientIdx (Cell.str "")) plans hcols, ih (idx + 1)]

theorem pairOutcome_shape (env : Env) (qrMap : String → List QRSpec)
    (headers : List String) (allRows : List (List Cell))
    (row : List Cell) (recipient : Cell) (p : Plan)
    (o : (Nat × String) × Bool)
    (h : pairOutcome env qrMap headers allRows row recipient p = some o) :
    statusShape env o.1.2 := by
  unfold pairOutcome at h
  split at h
  · split at h
    · cases h
      exact pairPipeline_shape env _ allRows headers _ recipient _ _ row
    · cases h
  · cases h

theorem independentRun_shape (env : Env) (qrMap : String → List QRSpec)
    (headers : List String) (allRows : List (List Cell))
    (recipientIdx : Nat) (plans : List Plan) :
    ∀ (idx : Nat) (rows : List (List Cell))
      (w : Nat × Nat × String),
      w ∈ (independentRun env qrMap headers allRows recipientIdx plans idx rows).1 →
      statusShape env w.2.2 := by
  intro idx rows
  induction rows generalizing idx with
  | nil => intro w hw; cases hw
  | cons row rest ih =>
      intro w hw
      unfold independentRun at hw
      simp only [List.mem_append, List.mem_filterMap] at hw
      rcases hw with ⟨p, hp, he⟩ | hw
      · obtain ⟨o, ho, hwo⟩ := Option.map_eq_some'.mp he
        have := pairOutcome_shape env qrMap headers allRows row _ p o ho
        rw [← hwo]
        exact this
      · exact ih (idx + 1) w (by simpa using hw)

/-- Claim C3: when the configuration is sound (recipient column and every
plan's condition/sent columns resolve), the abort-threaded run equals the
run that processes every (row, rule) pair independently — so no exception
escapes a pair boundary, the loop completes every pair, and every entered
pair gets exactly one status write, which is either the success timestamp
or the first failing stage's error message with a timestamp. -/
theorem claimC3 (env : Env) (qrMap : String → List QRSpec)
    (recipientCol : String) (headers : List String)
    (rows : List (List Cell)) (plans : List Plan) (rIdx : Nat)
    (hrec : indexOfStr headers recipientCol = some rIdx)
    (hcols : ∀ p ∈ plans, (indexOfStr headers p.conditionColumn).isSome
      ∧ (indexOfStr headers p.sentColumn).isSome) :
    processEmails env qrMap recipientCol headers rows plans
      = ⟨(independentRun env qrMap headers rows rIdx plans 0 rows).1,
         (independentRun env qrMap headers rows rIdx plans 0 rows).2, none⟩ ∧
    ∀ w ∈ (independentRun env qrMap headers rows rIdx plans 0 rows).1,
      statusShape env w.2.2 := by
  constructor
  · simp only [processEmails, hrec,
      runRowsLoop_eq env qrMap headers rows rIdx plans hcols 0 rows]
  · intro w hw
    exact independentRun_shape env qrMap headers rows rIdx plans 0 rows w hw

/-- Claim C3, witness instantiation: one row, one rule, all columns
resolving, entry condition satisfied. -/
theorem claimC3_witness :
    indexOfStr ["Recipient", "C", "S"] "Recipient" = some 0 ∧
    (∀ p ∈ [(⟨"T", "C", "S"⟩ : Plan)],
      (indexOfStr ["Recipient", "C", "S"] p.conditionColumn).isSome
        ∧ (indexOfStr ["Recipient", "C", "S"] p.sentColumn).isSome) ∧
    (processEmails envTest (fun _ => []) "Recipient" ["Recipient", "C", "S"]
        [[Cell.str "a@b", Cell.num 1, Cell.str ""]] [⟨"T", "C", "S"⟩]
      = ⟨(independentRun envTest (fun _ => []) ["Recipient", "C", "S"]
            [[Cell.str "a@b", Cell.num 1, Cell.str ""]] 0 [⟨"T", "C", "S"⟩] 0
            [[Cell.str "a@b", Cell.num 1, Cell.str ""]]).1,
          (independentRun envTest (fun _ => []) ["Recipient", "C", "S"]
            [[Cell.str "a@b", Cell.num 1, Cell.str ""]] 0 [⟨"T", "C", "S"⟩] 0
            [[Cell.str "a@b", Cell.num 1, Cell.str ""]]).2, none⟩ ∧
      ∀ w ∈ (independentRun envTest (fun _ => []) ["Recipient", "C", "S"]
            [[Cell.str "a@b", Cell.num 1, Cell.str ""]] 0 [⟨"T", "C", "S"⟩] 0
            [[Cell.str "a@b", Cell.num 1, Cell.str ""]]).1,
        statusShape envTest w.2.2) :=
  ⟨by decide, by decide,
    claimC3 envTest (fun _ => []) "Recipient" ["Recipient", "C", "S"]
      [[Cell.str "a@b", Cell.num 1, Cell.str ""]] [⟨"T", "C", "S"⟩] 0
      (by decide) (by decide)⟩

/-- Claim C5, counterexample: the missing-column check runs inside the
per-pair loop, so with plans `[⟨T,C,S⟩, ⟨T2,X,S⟩]` (the second referencing
a column `X` absent from the headers) the first pair dispatches its email
and writes its status cell *before* the run aborts — the abort is not
clean-slate. -/
theorem claimC5_counterexample :
    processEmails envTest (fun _ => []) "Recipient" ["Recipient", "C", "S"]
        [[Cell.str "a@b", Cell.num 1, Cell.str ""]]
        [⟨"T", "C", "S"⟩, ⟨"T2", "X", "S"⟩]
      = ⟨[(0, 2, "NOW")], [Cell.str "a@b"],
          some "Columns X or S not found in realization data."⟩ ∧
    ([(0, 2, "NOW")] : List (Nat × Nat × String)) ≠ [] ∧
    ([Cell.str "a@b"] : List Cell) ≠ [] := by
  refine ⟨rfl, by decide, by decide⟩

theorem processPair_err (env : Env) (qrMap : String → List QRSpec)
    (headers : List String) (allRows : List (List Cell))
    (row : List Cell) (recipient : Cell) (p : Plan)
    (h : indexOfStr headers p.conditionColumn = none
      ∨ indexOfStr headers p.sentColumn = none) :
    processPair env qrMap headers allRows row recipient p
      = .error ("Columns " ++ p.conditionColumn ++ " or " ++ p.sentColumn ++
          " not found in realization data.") := by
  unfold processPair
  cases hci : indexOfStr headers p.conditionColumn with
  | none => cases hsi : indexOfStr headers p.sentColumn <;> rfl
  | some ci =>
      cases hsi : indexOfStr headers p.sentColumn with
      | none => rfl
      | some si => simp_all

theorem runPlansLoop_abort (env : Env) (qrMap : String → List QRSpec)
    (headers : List String) (allRows : List (List Cell)) (rowIdx : Nat)
    (row : List Cell) (recipient : Cell) :
    ∀ plans : List Plan,
      (∃ p ∈ plans, indexOfStr headers p.conditionColumn = none
        ∨ indexOfStr headers p.sentColumn = none) →
      (runPlansLoop env qrMap headers allRows rowIdx row recipient plans).2.2.isSome := by
  intro plans
  induction plans with
  | nil => rintro ⟨p, hp, _⟩; cases hp
  | cons p ps ih =>
      rintro ⟨q, hq, hbad⟩
      unfold runPlansLoop
      rcases List.mem_cons.mp hq with rfl | hq2
      · rw [processPair_err env qrMap headers allRows row recipient q hbad]
        rfl
      · cases hpp : processPair env qrMap headers allRows row recipient p with
        | error e => rfl
        | ok o =>
            simp only [hpp]
            simpa using ih ⟨q, hq2, hbad⟩

/-- Claim C5, amended: a plan rule whose condition or sent column is
missing from the realization headers does abort the whole run with a
configuration error — but the check happens inside the per-pair loop, at
the first (row, rule) pair that references the missing column, so pairs
processed earlier in the same run keep their dispatched emails and
written status cells (see the counterexample). -/
theorem claimC5 (env : Env) (qrMap : String → List QRSpec)
    (recipientCol : String) (headers : List String)
    (rows : List (List Cell)) (plans : List Plan)
    (hrows : rows ≠ [])
    (hbad : ∃ p ∈ plans, indexOfStr headers p.conditionColumn = none
      ∨ indexOfStr headers p.sentColumn = none) :
    (processEmails env qrMap recipientCol headers rows plans).aborted.isSome := by
  unfold processEmails
  cases hrec : indexOfStr headers recipientCol with
  | none => rfl
  | some rIdx =>
      obtain ⟨row, rest, rfl⟩ : ∃ r t, rows = r :: t := by
        cases rows with
        | nil => exact absurd rfl hrows
        | cons r t => exact ⟨r, t, rfl⟩
      have habort : (runPlansLoop env qrMap headers (row :: rest) 0 row
          (row[rIdx]?.getD (Cell.str "")) plans).2.2.isSome = true := by
        simpa only [List.getD_eq_getElem?_getD] using
          runPlansLoop_abort env qrMap headers (row :: rest) 0 row
            (row.getD rIdx (Cell.str "")) plans hbad
      unfold runRowsLoop
      cases hab : (runPlansLoop env qrMap headers (row :: rest) 0 row
          (row[rIdx]?.getD (Cell.str "")) plans).2.2 with
      | none => rw [hab] at habort; cases habort
      | some e => simp [hab]

/-- Claim C5, witness instantiation: the amended abort fact at the
counterexample's inputs. -/
theorem claimC5_witness :
    ([[Cell.str "a@b", Cell.num 1, Cell.str ""]] : List (List Cell)) ≠ [] ∧
    (∃ p ∈ [(⟨"T", "C", "S"⟩ : Plan), ⟨"T2", "X", "S"⟩],
      indexOfStr ["Recipient", "C", "S"] p.conditionColumn = none
        ∨ indexOfStr ["Recipient", "C", "S"] p.sentColumn = none) ∧
    (processEmails envTest (fun _ => []) "Recipient" ["Recipient", "C", "S"]
        [[Cell.str "a@b", Cell.num 1, Cell.str ""]]
        [⟨"T", "C", "S"⟩, ⟨"T2", "X", "S"⟩]).aborted.isSome :=
  ⟨by decide, ⟨⟨"T2", "X", "S"⟩, by decide, by decide⟩,
    claimC5 envTest (fun _ => []) "Recipient" ["Recipient", "C", "S"]
      [[Cell.str "a@b", Cell.num 1, Cell.str ""]]
      [⟨"T", "C", "S"⟩, ⟨"T2", "X", "S"⟩] (by decide)
      ⟨⟨"T2", "X", "S"⟩, by decide, by decide⟩⟩

/- ### Lemmas about the note parser. -/

theorem splitSp_ne_nil (cs : List Char) : splitSp cs ≠ [] := by
  cases cs with
  | nil => simp [splitSp]
  | cons c cs =>
      unfold splitSp
      by_cases h : c = ' '
      · simp [h]
      · simp only [if_neg h]
        cases splitSp cs <;> simp

theorem dropWhile_space_id (p : List Char) (h : ∀ c ∈ p, c ≠ ' ') :
    p.dropWhile (· = ' ') = p := by
  cases p with
  | nil => rfl
  | cons a l =>
      exact List.dropWhile_cons_of_neg
        (by simpa using h a (List.mem_cons_self _ _))

theorem trimC_no_space (p : List Char) (h : ∀ c ∈ p, c ≠ ' ') :
    trimC p = p := by
  unfold trimC
  rw [dropWhile_space_id p h,
    dropWhile_space_id p.reverse (fun c hc => h c (List.mem_reverse.mp hc)),
    List.reverse_reverse]

theorem splitSp_prepend (p : List Char) :
    ∀ (X : List Char) (t : List Char) (ts : List (List Char)),
      (∀ c ∈ p, c ≠ ' ') → splitSp X = t :: ts →
      splitSp (p ++ X) = (p ++ t) :: ts := by
  induction p with
  | nil => intro X t ts _ hX; simpa using hX
  | cons a p ih =>
      intro X t ts hp hX
      have ha : a ≠ ' ' := hp a (List.mem_cons_self _ _)
      show splitSp (a :: (p ++ X)) = _
      unfold splitSp
      simp only [if_neg ha]
      rw [ih X t ts (fun c hc => hp c (List.mem_cons_of_mem _ hc)) hX]
      rfl

theorem dropWhile_head_not (p : Char → Bool) :
    ∀ (l : List Char) (x : Char) (xs : List Char),
      l.dropWhile p = x :: xs → p x = false := by
  intro l
  induction l with
  | nil => intro x xs h; cases h
  | cons a as ih =>
      intro x xs h
      by_cases ha : p a
      · rw [List.dropWhile_cons_of_pos ha] at h
        exact ih x xs h
      · rw [List.dropWhile_cons_of_neg ha] at h
        cases h
        simpa using ha

theorem dropWhile_length_le (p : Char → Bool) (l : List Char) :
    (l.dropWhile p).length ≤ l.length := by
  induction l with
  | nil => simp [List.dropWhile]
  | cons a as ih =>
      by_cases h : p a
      · rw [List.dropWhile_cons_of_pos h]
        exact Nat.le_succ_of_le ih
      · rw [List.dropWhile_cons_of_neg h]

theorem digit_ne_space (x : Char) (hx : x.isDigit = true) : x ≠ ' ' := by
  intro he
  subst he
  exact absurd hx (by decide)

theorem split_clean_eq_digitRuns :
    ∀ (n : Nat) (cs : List Char), cs.length ≤ n →
      (splitSp (cs.map (fun c => if c.isDigit then c else ' '))).filter
        (fun p => trimC p ≠ []) = digitRuns cs := by
  intro n
  induction n with
  | zero =>
      intro cs hcs
      have h0 : cs = [] := List.length_eq_zero.mp (Nat.le_zero.mp hcs)
      subst h0
      simp [digitRuns, splitSp, trimC]
  | succ n ih =>
      intro cs hcs
      match cs with
      | [] => simp [digitRuns, splitSp, trimC]
      | c :: cs' =>
          have hcs' : cs'.length ≤ n := by
            simpa using Nat.le_of_succ_le_succ (by simpa using hcs)
          by_cases hd : c.isDigit
          · have hsplit : cs'.takeWhile Char.isDigit ++ cs'.dropWhile Char.isDigit = cs' :=
              List.takeWhile_append_dropWhile _ _
            have hds : ∀ x ∈ cs'.takeWhile Char.isDigit, x.isDigit = true :=
              fun x hx => List.mem_takeWhile_imp hx
            have hmapds : (cs'.takeWhile Char.isDigit).map
                (fun c => if c.isDigit then c else ' ') = cs'.takeWhile Char.isDigit := by
              rw [List.map_congr_left (g := id) (fun x hx => by rw [if_pos (hds x hx)]; rfl),
                List.map_id]
            have hnospace : ∀ x ∈ c :: cs'.takeWhile Char.isDigit, x ≠ ' ' := by
              intro x hx
              rcases List.mem_cons.mp hx with rfl | hx2
              · exact digit_ne_space x hd
              · exact digit_ne_space x (hds x hx2)
            have htrim : trimC (c :: cs'.takeWhile Char.isDigit) ≠ [] := by
              rw [trimC_no_space _ hnospace]
              simp
            have hmapcs : (c :: cs').map (fun c => if c.isDigit then c else ' ')
                = (c :: cs'.takeWhile Char.isDigit) ++
                    (cs'.dropWhile Char.isDigit).map (fun c => if c.isDigit then c else ' ') := by
              show (if c.isDigit then c else ' ') ::
                  cs'.map (fun c => if c.isDigit then c else ' ') = _
              rw [if_pos hd]
              conv_lhs => rw [← hsplit]
              rw [List.map_append, hmapds]
              rfl
            have hruns : digitRuns (c :: cs')
                = (c :: cs'.takeWhile Char.isDigit) ::
                    digitRuns (cs'.dropWhile Char.isDigit) := by
              rw [digitRuns]
              simp [hd]
            cases hrest : cs'.dropWhile Char.isDigit with
            | nil =>
                rw [hmapcs, hrest, hruns, hrest]
                simp only [List.map_nil]
                rw [splitSp_prepend (c :: cs'.takeWhile Char.isDigit) [] [] [] hnospace rfl]
                simp only [List.append_nil, List.filter_cons, htrim, decide_not]
                simp [digitRuns, htrim]
            | cons r rest' =>
                have hr : r.isDigit = false := dropWhile_head_not _ cs' r rest' hrest
                have hrestlen : rest'.length ≤ n := by
                  have h1 : (cs'.dropWhile Char.isDigit).length ≤ cs'.length :=
                    dropWhile_length_le _ _
                  rw [hrest] at h1
                  simp only [List.length_cons] at h1
                  omega
                have hmaprest : (r :: rest').map (fun c => if c.isDigit then c else ' ')
                    = ' ' :: rest'.map (fun c => if c.isDigit then c else ' ') := by
                  show (if r.isDigit then r else ' ') :: _ = _
                  rw [if_neg (by simp [hr])]
                have hspX : splitSp ((' ' : Char) ::
                    rest'.map (fun c => if c.isDigit then c else ' '))
                    = [] :: splitSp (rest'.map (fun c => if c.isDigit then c else ' ')) :=
                  rfl
                rw [hmapcs, hrest, hruns, hrest, hmaprest,
                  splitSp_prepend (c :: cs'.takeWhile Char.isDigit) _ _ _ hnospace hspX]
                simp only [List.append_nil, List.filter_cons, htrim]
                have hrr : digitRuns (r :: rest') = digitRuns rest' := by
                  rw [digitRuns]
                  simp [hr]
                rw [hrr, ← ih rest' hrestlen]
                simp [htrim]
          · have hmapcs : (c :: cs').map (fun c => if c.isDigit then c else ' ')
                = ' ' :: cs'.map (fun c => if c.isDigit then c else ' ') := by
              show (if c.isDigit then c else ' ') :: _ = _
              rw [if_neg (by simp [Bool.not_eq_true] at hd; simp [hd])]
            have hruns : digitRuns (c :: cs') = digitRuns cs' := by
              rw [digitRuns]
              simp [hd]
            have hsp : splitSp ((' ' : Char) ::
                cs'.map (fun c => if c.isDigit then c else ' '))
                = [] :: splitSp (cs'.map (fun c => if c.isDigit then c else ' ')) := rfl
            rw [hmapcs, hruns, hsp, List.filter_cons]
            simpa [show trimC ([] : List Char) = [] from rfl] using ih cs' hcs'

/-- Claim C9: `parseTransactionNote` keeps exactly the maximal digit runs
of length exactly 8 as the parsed keys (joined with commas, as the code
returns them) together with their count; on "REF 12345678 end" it yields
the single key "12345678" with count 1, and on an absent or empty note it
yields no keys and count 0. -/
theorem claimC9 :
    (∀ s : String, parseTransactionNote (some s)
      = (String.intercalate "," (eightDigitKeys s), (eightDigitKeys s).length)) ∧
    parseTransactionNote (some "REF 12345678 end") = ("12345678", 1) ∧
    parseTransactionNote none = ("", 0) ∧
    parseTransactionNote (some "") = ("", 0) := by
  refine ⟨?_, rfl, rfl, rfl⟩
  intro s
  unfold parseTransactionNote
  by_cases hs : s = ""
  · subst hs
    simp [eightDigitKeys, digitRuns]
    rfl
  · simp only [if_neg hs]
    rw [split_clean_eq_digitRuns s.data.length s.data (le_refl _)]
    unfold eightDigitKeys
    simp [List.length_map]
